import Mathlib

/-!
Verification of the Sales Management System (src/scr/main.py).

The program is a single-file Python CLI.  This development shallowly embeds
its data model and operations:

* Python floats are modelled by `PyFloat`: an exact rational together with
  the IEEE special values nan, +inf and -inf.  Every concrete amount in the
  specification (10.00, 5.00, 3.00, ...) is exactly representable in binary
  floating point and the sums involved are exact, so exact rational
  arithmetic agrees with the float arithmetic the program performs on them.
* `float(text)` is modelled by `pyFloatOfString` (whitespace stripping, an
  optional sign, the special literals inf/infinity/nan case-insensitively,
  and decimal literals with optional fraction and exponent; Python's
  underscore digit separators are omitted as nothing exercises them).
* `datetime.fromisoformat` / `datetime.isoformat(timespec="seconds")` are
  modelled by `parseISO` / `isoformat` for the shapes this program and the
  specification exercise: `YYYY-MM-DD` and `YYYY-MM-DD?HH:MM:SS` with a `T`
  or space separator (fractional seconds and timezone offsets are omitted).
* Persisted JSON scalars are `JsonVal`; a stored record is a `RawRecord`
  (a dict with optional `timestamp` / `amount` keys, or a non-dict value,
  whose subscripting raises and therefore validates to `none`).
* The file system state seen by `load_sales_data` is `FileState`.

Function names follow the Python source: `parse_sale_record`,
`load_sales_data`, `save_sales_data`, `add_sale`, `show_daily_total`,
`generate_sales_report`, `authenticate`.
-/

namespace SalesMgmt

/-- A Python float: an exact rational, or one of the IEEE special values.
The amounts handled by the program are decimal literals and their sums,
which binary floats compute exactly, so the rational model is faithful. -/
inductive PyFloat where
  | finite (q : ℚ)
  | nan
  | inf
  | ninf
deriving DecidableEq, Repr

namespace PyFloat

/-- IEEE addition (`+` on Python floats), exact on finite values. -/
def add : PyFloat → PyFloat → PyFloat
  | nan, _ => nan
  | _, nan => nan
  | inf, ninf => nan
  | ninf, inf => nan
  | inf, _ => inf
  | _, inf => inf
  | ninf, _ => ninf
  | _, ninf => ninf
  | finite a, finite b => finite (a + b)

/-- Negation of a Python float. -/
def neg : PyFloat → PyFloat
  | finite q => finite (-q)
  | nan => nan
  | inf => ninf
  | ninf => inf

/-- The float `0.0`, the start of Python's `sum` and of the daily-total loop. -/
def zero : PyFloat := finite 0

/-- IEEE strict comparison `<` on Python floats: any comparison with nan
is false. -/
def ltB : PyFloat → PyFloat → Bool
  | nan, _ => false
  | _, nan => false
  | finite a, finite b => decide (a < b)
  | inf, _ => false
  | _, inf => true
  | ninf, ninf => false
  | ninf, _ => true
  | _, ninf => false

/-- IEEE comparison `<=` on Python floats: any comparison with nan is false. -/
def leB : PyFloat → PyFloat → Bool
  | nan, _ => false
  | _, nan => false
  | finite a, finite b => decide (a ≤ b)
  | _, inf => true
  | inf, _ => false
  | ninf, _ => true
  | _, ninf => false

/-- The test `amount < 0` performed by `add_sale`.  False on nan and +inf. -/
def ltZero (a : PyFloat) : Bool := ltB a zero

/-- Whether the float is a finite value (not nan, +inf or -inf). -/
def isFinite : PyFloat → Bool
  | finite _ => true
  | _ => false

/-- Exact division by a positive count, as `statistics.mean` divides the
exact sum by the number of data points. -/
def divNat : PyFloat → Nat → PyFloat
  | finite q, n => finite (q / n)
  | nan, _ => nan
  | inf, _ => inf
  | ninf, _ => ninf

end PyFloat

/-- Python's builtin `sum` over a list of floats: a left fold of `+`
starting from 0. -/
def pySum (l : List PyFloat) : PyFloat := l.foldl PyFloat.add PyFloat.zero

/-- `statistics.mean`: the exact sum of the data divided by the number of
data points. -/
def pyMean (l : List PyFloat) : PyFloat := (pySum l).divNat l.length

/-- One step of Python's `max`: replace the accumulator when the next
element compares strictly greater. -/
def pyMaxStep (acc x : PyFloat) : PyFloat := if PyFloat.ltB acc x then x else acc

/-- Python's `max` over a nonempty list, split as first element and rest. -/
def pyMax (a : PyFloat) (l : List PyFloat) : PyFloat := l.foldl pyMaxStep a

/-- One step of Python's `min`: replace the accumulator when the next
element compares strictly smaller. -/
def pyMinStep (acc x : PyFloat) : PyFloat := if PyFloat.ltB x acc then x else acc

/-- Python's `min` over a nonempty list, split as first element and rest. -/
def pyMin (a : PyFloat) (l : List PyFloat) : PyFloat := l.foldl pyMinStep a

/-! ## Characters and strings -/

/-- ASCII whitespace, as stripped by `str.strip` and by `float`. -/
def isWsChar (c : Char) : Bool :=
  c = ' ' || c = '\t' || c = '\n' || c = '\r' || c = '\x0b' || c = '\x0c'

/-- Strip whitespace from both ends of a character list. -/
def stripChars (l : List Char) : List Char :=
  ((l.dropWhile isWsChar).reverse.dropWhile isWsChar).reverse

/-- Python's `str.strip()` (ASCII whitespace). -/
def pyStrip (s : String) : String := ⟨stripChars s.data⟩

/-- ASCII lower-casing of one character. -/
def lowerChar (c : Char) : Char :=
  if 'A' ≤ c && c ≤ 'Z' then Char.ofNat (c.toNat + 32) else c

/-- Decimal digit test. -/
def isDigitChar (c : Char) : Bool := '0' ≤ c && c ≤ '9'

/-- Numeric value of a digit string (undefined junk on non-digits). -/
def digitsToNat (l : List Char) : Nat :=
  l.foldl (fun a c => 10 * a + (c.toNat - 48)) 0

/-- All characters are decimal digits. -/
def allDigits (l : List Char) : Bool := l.all isDigitChar

/-! ## The model of Python `float(text)` -/

/-- Mantissa of a float literal: `digits`, `digits.digits`, `digits.` or
`.digits` (at least one digit overall). -/
def parseMantissa (l : List Char) : Option ℚ :=
  match l.splitOn '.' with
  | [a] => if !a.isEmpty && allDigits a then some (digitsToNat a : ℚ) else none
  | [a, b] =>
      if (!a.isEmpty || !b.isEmpty) && allDigits a && allDigits b then
        some ((digitsToNat a : ℚ) + (digitsToNat b : ℚ) / (10 : ℚ) ^ b.length)
      else none
  | _ => none

/-- Exponent part of a float literal: optional sign then digits. -/
def parseExponent (l : List Char) : Option ℤ :=
  match l with
  | '+' :: r => if !r.isEmpty && allDigits r then some (digitsToNat r : ℤ) else none
  | '-' :: r => if !r.isEmpty && allDigits r then some (-(digitsToNat r : ℤ)) else none
  | r => if !r.isEmpty && allDigits r then some (digitsToNat r : ℤ) else none

/-- Unsigned float literal: the specials `inf`, `infinity`, `nan`
(already lower-cased), or a decimal literal with optional exponent. -/
def parseUnsignedFloat (l : List Char) : Option PyFloat :=
  if l = "inf".data || l = "infinity".data then some .inf
  else if l = "nan".data then some .nan
  else
    match l.splitOn 'e' with
    | [m] => (parseMantissa m).map .finite
    | [m, e] =>
        match parseMantissa m, parseExponent e with
        | some q, some ex => some (.finite (q * (10 : ℚ) ^ ex))
        | _, _ => none
    | _ => none

/-- Python's `float(text)` on a string: strip surrounding whitespace,
lower-case, optional sign, then a special or decimal literal.
`none` models the `ValueError` that `float` raises on malformed text. -/
def pyFloatOfString (s : String) : Option PyFloat :=
  match (stripChars s.data).map lowerChar with
  | '+' :: rest => parseUnsignedFloat rest
  | '-' :: rest => (parseUnsignedFloat rest).map PyFloat.neg
  | rest => parseUnsignedFloat rest

/-! ## JSON scalar values and Python coercions -/

/-- A JSON scalar value as produced by `json.load` (strings, numbers,
booleans, null).  Arrays and objects in a field position behave like
`null` for `float()` (a `TypeError`) and are not distinguished here. -/
inductive JsonVal where
  | str (s : String)
  | num (x : PyFloat)
  | jbool (b : Bool)
  | null
deriving DecidableEq, Repr

/-- Python's `float(value)` on a loaded JSON scalar: numbers pass through,
strings go through the literal parser, booleans coerce to 1.0 / 0.0, and
`null` raises `TypeError` (modelled as `none`). -/
def coerceFloat : JsonVal → Option PyFloat
  | .num x => some x
  | .str s => pyFloatOfString s
  | .jbool b => some (.finite (if b then 1 else 0))
  | .null => none

/-- Python's `str(value)` on a loaded JSON scalar.  It never fails; only
its value on strings matters downstream (non-string renderings such as
`True` or `10.0` never parse as ISO dates; the decimal rendering of a
non-integer float is abbreviated here since nothing depends on it). -/
def coerceStr : JsonVal → String
  | .str s => s
  | .num (.finite q) => toString q.num ++ (if q.den = 1 then ".0" else "/" ++ toString q.den)
  | .num .nan => "nan"
  | .num .inf => "inf"
  | .num .ninf => "-inf"
  | .jbool b => if b then "True" else "False"
  | .null => "None"

/-! ## Dates and times -/

/-- A calendar date, as returned by `datetime.date()`. -/
structure Date where
  year : Nat
  month : Nat
  day : Nat
deriving DecidableEq, Repr

/-- A wall-clock datetime with second precision, as the program produces
with `isoformat(timespec="seconds")` and consumes with `fromisoformat`. -/
structure DateTime where
  year : Nat
  month : Nat
  day : Nat
  hour : Nat
  minute : Nat
  second : Nat
deriving DecidableEq, Repr

/-- `datetime.date()`: the calendar-date part. -/
def DateTime.dateOf (t : DateTime) : Date := ⟨t.year, t.month, t.day⟩

/-- The character of one decimal digit. -/
def digitCh (d : Nat) : Char := Char.ofNat (48 + d)

/-- Two-digit zero-padded decimal rendering. -/
def pad2 (n : Nat) : List Char := [digitCh (n / 10 % 10), digitCh (n % 10)]

/-- Four-digit zero-padded decimal rendering. -/
def pad4 (n : Nat) : List Char :=
  [digitCh (n / 1000 % 10), digitCh (n / 100 % 10), digitCh (n / 10 % 10), digitCh (n % 10)]

/-- `datetime.isoformat(timespec="seconds")` as a character list:
`YYYY-MM-DDTHH:MM:SS`. -/
def isoformatChars (t : DateTime) : List Char :=
  pad4 t.year ++ '-' :: (pad2 t.month ++ '-' :: (pad2 t.day ++
    'T' :: (pad2 t.hour ++ ':' :: (pad2 t.minute ++ ':' :: pad2 t.second))))

/-- `datetime.isoformat(timespec="seconds")`. -/
def isoformat (t : DateTime) : String := ⟨isoformatChars t⟩

/-- `strftime("%Y-%m-%d")`: the day key used for report grouping. -/
def dayKey (t : DateTime) : String := ⟨pad4 t.year ++ '-' :: (pad2 t.month ++ '-' :: pad2 t.day)⟩

/-- Value of a two-digit group, `none` unless both characters are digits. -/
def twoDigitVal (a b : Char) : Option Nat :=
  if isDigitChar a && isDigitChar b then some (10 * (a.toNat - 48) + (b.toNat - 48))
  else none

/-- Value of a four-digit group, `none` unless all four characters are digits. -/
def fourDigitVal (a b c d : Char) : Option Nat :=
  if isDigitChar a && isDigitChar b && isDigitChar c && isDigitChar d then
    some (1000 * (a.toNat - 48) + 100 * (b.toNat - 48) + 10 * (c.toNat - 48) + (d.toNat - 48))
  else none

/-- Gregorian leap-year rule, as `datetime` uses. -/
def isLeap (y : Nat) : Bool := (y % 4 = 0 && y % 100 ≠ 0) || y % 400 = 0

/-- Number of days in a month of a given year. -/
def daysInMonth (y m : Nat) : Nat :=
  if m = 2 then (if isLeap y then 29 else 28)
  else if m = 4 || m = 6 || m = 9 || m = 11 then 30
  else 31

/-- The range checks `datetime` enforces on a calendar date
(`MINYEAR = 1`, `MAXYEAR = 9999`). -/
def validYMD (y m d : Nat) : Bool :=
  1 ≤ y && y ≤ 9999 && 1 ≤ m && m ≤ 12 && 1 ≤ d && d ≤ daysInMonth y m

/-- The range checks `datetime` enforces on a time of day. -/
def validHMS (h mi s : Nat) : Bool := h ≤ 23 && mi ≤ 59 && s ≤ 59

/-- A `DateTime` representable by the `datetime` library (and hence by
`datetime.now()`). -/
def DateTime.valid (t : DateTime) : Bool :=
  validYMD t.year t.month t.day && validHMS t.hour t.minute t.second

/-- `datetime.fromisoformat` on the shapes this program exercises:
a date `YYYY-MM-DD` (time defaults to midnight) or a date-time
`YYYY-MM-DD?HH:MM:SS` with `T` or space as separator; out-of-range
components raise `ValueError` (modelled as `none`). -/
def parseISOChars : List Char → Option DateTime
  | [y1, y2, y3, y4, g1, m1, m2, g2, d1, d2] =>
      if g1 = '-' && g2 = '-' then
        match fourDigitVal y1 y2 y3 y4, twoDigitVal m1 m2, twoDigitVal d1 d2 with
        | some y, some m, some d =>
            if validYMD y m d then some ⟨y, m, d, 0, 0, 0⟩ else none
        | _, _, _ => none
      else none
  | [y1, y2, y3, y4, g1, m1, m2, g2, d1, d2, sep, h1, h2, c1, n1, n2, c2, s1, s2] =>
      if g1 = '-' && g2 = '-' && c1 = ':' && c2 = ':' && (sep = 'T' || sep = ' ') then
        match fourDigitVal y1 y2 y3 y4, twoDigitVal m1 m2, twoDigitVal d1 d2,
              twoDigitVal h1 h2, twoDigitVal n1 n2, twoDigitVal s1 s2 with
        | some y, some m, some d, some h, some n, some s =>
            if validYMD y m d && validHMS h n s then some ⟨y, m, d, h, n, s⟩ else none
        | _, _, _, _, _, _ => none
      else none
  | _ => none

/-- `datetime.fromisoformat` on a string. -/
def parseISO (s : String) : Option DateTime := parseISOChars s.data

/-! ## Stored records and the validator -/

/-- One element of the persisted JSON array: a dict with the optional keys
`timestamp` and `amount` (other keys are irrelevant), or a non-dict value,
whose subscripting raises `TypeError` and which therefore never validates. -/
inductive RawRecord where
  | dict (timestamp : Option JsonVal) (amount : Option JsonVal)
  | other (v : JsonVal)
deriving DecidableEq, Repr

/-- The `timestamp` field of a stored record, `none` when absent. -/
def RawRecord.tsField : RawRecord → Option JsonVal
  | .dict t _ => t
  | .other _ => none

/-- The `amount` field of a stored record, `none` when absent. -/
def RawRecord.amtField : RawRecord → Option JsonVal
  | .dict _ a => a
  | .other _ => none

/-- `parse_sale_record`: return the parsed `(timestamp, amount)` pair or
`none` if invalid.  Mirrors the source: `str(record["timestamp"])`, then
`float(record["amount"])`, then `datetime.fromisoformat`; every
`KeyError`, `TypeError` and `ValueError` is caught and yields `none`. -/
def parse_sale_record (r : RawRecord) : Option (DateTime × PyFloat) :=
  match r with
  | .other _ => none
  | .dict ts am =>
      match ts with
      | none => none
      | some tv =>
          match am with
          | none => none
          | some av =>
              match coerceFloat av with
              | none => none
              | some a =>
                  match parseISO (coerceStr tv) with
                  | none => none
                  | some t => some (t, a)

/-- The record `add_sale` appends: the amount as a float and the current
time as `isoformat(timespec="seconds")`. -/
def mkSaleRecord (now : DateTime) (amount : PyFloat) : RawRecord :=
  .dict (some (.str (isoformat now))) (some (.num amount))

/-! ## Persistence -/

/-- The parsed content of the data file: a JSON array of records, or some
other JSON document (rejected by the `isinstance(data, list)` check). -/
inductive JsonDoc where
  | arr (records : List RawRecord)
  | nonArr (v : JsonVal)
deriving DecidableEq, Repr

/-- The state of the data file as seen by `load_sales_data`. -/
inductive FileState where
  | absent
  | unreadable
  | malformed
  | stored (doc : JsonDoc)
deriving DecidableEq, Repr

/-- `load_sales_data`: an absent file, an `OSError`, a `json.JSONDecodeError`
or a non-list document all yield the empty list; a stored array is
returned as is. -/
def load_sales_data : FileState → List RawRecord
  | .absent => []
  | .unreadable => []
  | .malformed => []
  | .stored (.arr rs) => rs
  | .stored (.nonArr _) => []

/-- `save_sales_data`: `json.dump` of the record list.  The record fields
are JSON scalars, which `json` round-trips exactly (float repr round-trips,
and nan/inf serialize as the tokens `NaN`/`Infinity` that `json.load`
accepts), so the resulting file state holds the same array. -/
def save_sales_data (sales : List RawRecord) : FileState := .stored (.arr sales)

/-! ## Operations -/

/-- Result of one `add_sale` interaction: the record list afterwards, the
file state written by `save_sales_data` (`none` when the file was not
rewritten), and whether a record was appended (`false` means the
`Invalid amount` message was printed and the operation aborted). -/
structure AddSaleResult where
  sales : List RawRecord
  saved : Option FileState
  accepted : Bool
deriving DecidableEq, Repr

/-- `add_sale`: strip the entered text, parse it with `float`; a parse
failure or a value with `amount < 0` aborts with no state change;
otherwise append the record and persist the whole list. -/
def add_sale (sales : List RawRecord) (amountText : String) (now : DateTime) : AddSaleResult :=
  match pyFloatOfString (pyStrip amountText) with
  | none => ⟨sales, none, false⟩
  | some amount =>
      if amount.ltZero then ⟨sales, none, false⟩
      else
        let sales2 := sales ++ [mkSaleRecord now amount]
        ⟨sales2, some (save_sales_data sales2), true⟩

/-- One iteration of the `show_daily_total` loop: skip records that do not
validate, add the amount when the record's calendar date is today. -/
def dailyStep (today : Date) (total : PyFloat) (rec : RawRecord) : PyFloat :=
  match parse_sale_record rec with
  | none => total
  | some p => if p.1.dateOf == today then total.add p.2 else total

/-- `show_daily_total`: total of the valid records dated today, starting
from 0.0.  `today` (in the source, `datetime.now().date()`) is a
parameter. -/
def show_daily_total (sales : List RawRecord) (today : Date) : PyFloat :=
  sales.foldl (dailyStep today) PyFloat.zero

/-- The valid records of a list, in order: the loop that builds
`valid_sales` in `generate_sales_report`. -/
def validSales (sales : List RawRecord) : List (DateTime × PyFloat) :=
  sales.filterMap parse_sale_record

/-- The amounts of the valid records, in order. -/
def amountsOf (sales : List RawRecord) : List PyFloat :=
  (validSales sales).map Prod.snd

/-- Lexicographic comparison of character lists by code point, the order
Python's `sorted` uses on strings. -/
def lexLe : List Char → List Char → Bool
  | [], _ => true
  | _ :: _, [] => false
  | a :: as, b :: bs =>
      if a.toNat < b.toNat then true
      else if b.toNat < a.toNat then false
      else lexLe as bs

/-- String order by code points, as Python compares day keys. -/
def keyLe (a b : String) : Bool := lexLe a.data b.data

/-- Insert a key into a sorted key list (ascending string order). -/
def insertSorted (k : String) : List String → List String
  | [] => [k]
  | x :: xs => if keyLe k x then k :: x :: xs else x :: insertSorted k xs

/-- Sort day keys ascending, as `sorted(grouped_by_day)` does. -/
def sortKeys (l : List String) : List String := l.foldr insertSorted []

/-- The `grouped_by_day` mapping rendered in sorted key order: for each
distinct `%Y-%m-%d` key of a valid record, the sum (by float `+`) of the
amounts with that key. -/
def groupedByDay (valid : List (DateTime × PyFloat)) : List (String × PyFloat) :=
  let keys := sortKeys ((valid.map fun p => dayKey p.1).dedup)
  keys.map fun k => (k, pySum ((valid.filter fun p => dayKey p.1 == k).map Prod.snd))

/-- The statistics of a generated report, one field per report line. -/
structure Report where
  totalRecords : Nat
  totalSales : PyFloat
  averageSale : PyFloat
  highestSale : PyFloat
  lowestSale : PyFloat
  dailyTotals : List (String × PyFloat)
deriving DecidableEq, Repr

/-- `generate_sales_report`: validate all records, abort with `none`
(the `No valid sales records found` message, no file written) when no
record validates; otherwise compute count, `sum`, `statistics.mean`,
`max`, `min` and the per-day totals.  `none` models the aborted path in
which no report file is created. -/
def generate_sales_report (sales : List RawRecord) : Option Report :=
  match sales.filterMap parse_sale_record with
  | [] => none
  | v :: vs =>
      let amounts := v.2 :: vs.map Prod.snd
      some
        { totalRecords := (v :: vs).length
          totalSales := pySum amounts
          averageSale := pyMean amounts
          highestSale := pyMax v.2 (vs.map Prod.snd)
          lowestSale := pyMin v.2 (vs.map Prod.snd)
          dailyTotals := groupedByDay (v :: vs) }

/-! ## Authentication and entry point -/

/-- The compiled-in fallback admin password. -/
def DEFAULT_ADMIN_PASSWORD : String := "admin123"

/-- The retry limit of the login loop. -/
def MAX_LOGIN_ATTEMPTS : Nat := 3

/-- `get_admin_password`: the environment override when set, else the
default. -/
def get_admin_password (env : Option String) : String :=
  env.getD DEFAULT_ADMIN_PASSWORD

/-- The login loop: up to `fuel` attempts, each entered line is stripped
and compared with the expected password; success returns immediately,
exhaustion returns failure. -/
def authGo (expected : String) : Nat → List String → Bool
  | 0, _ => false
  | _ + 1, [] => false
  | n + 1, p :: rest => if pyStrip p == expected then true else authGo expected n rest

/-- `authenticate`: the login loop with `MAX_LOGIN_ATTEMPTS` attempts over
the sequence of entered passwords. -/
def authenticate (expected : String) (inputs : List String) : Bool :=
  authGo expected MAX_LOGIN_ATTEMPTS inputs

/-- Outcome of `main`: either access is denied before any menu is shown,
or the menu loop starts over the loaded sales list. -/
inductive MainOutcome where
  | accessDenied
  | menuShown (initialSales : List RawRecord)
deriving DecidableEq, Repr

/-- `main`: authenticate; only on success does `menu_loop` run (loading
the sales data first). -/
def mainEntry (env : Option String) (passwordInputs : List String) (fs : FileState) :
    MainOutcome :=
  if authenticate (get_admin_password env) passwordInputs then
    .menuShown (load_sales_data fs)
  else .accessDenied

/-! ## Specification-side definitions

These follow the spec's wording (sum, mean, maximum, minimum, per-date
sums) and are compared with the code-side definitions above. -/

/-- The mathematical sum of a list of floats (a right fold of `+` from 0),
the spec's "sum of the valid amounts". -/
def sumAmounts (l : List PyFloat) : PyFloat := l.foldr PyFloat.add PyFloat.zero

/-- The valid records of `sales` dated `today`, the spec's "records that
validate successfully and whose timestamp falls on that date". -/
def matchedToday (sales : List RawRecord) (today : Date) : List PyFloat :=
  ((sales.filterMap parse_sale_record).filter fun p => p.1.dateOf == today).map Prod.snd

/-! ## Algebra of `PyFloat.add` -/

theorem PyFloat.add_zero_pf (a : PyFloat) : a.add PyFloat.zero = a := by
  cases a <;> simp [PyFloat.add, PyFloat.zero]

theorem PyFloat.zero_add_pf (a : PyFloat) : PyFloat.zero.add a = a := by
  cases a <;> simp [PyFloat.add, PyFloat.zero]

theorem PyFloat.add_assoc_pf (a b c : PyFloat) :
    (a.add b).add c = a.add (b.add c) := by
  cases a <;> cases b <;> cases c <;> simp [PyFloat.add, add_assoc]

theorem foldl_add_eq (l : List PyFloat) (acc : PyFloat) :
    l.foldl PyFloat.add acc = acc.add (sumAmounts l) := by
  induction l generalizing acc with
  | nil => simp [sumAmounts, PyFloat.add_zero_pf]
  | cons x xs ih =>
      simp only [List.foldl_cons, ih, sumAmounts, List.foldr_cons]
      exact PyFloat.add_assoc_pf acc x _

theorem pySum_eq_sumAmounts (l : List PyFloat) : pySum l = sumAmounts l := by
  simp [pySum, foldl_add_eq, PyFloat.zero_add_pf]

/-! ## Python `max` / `min` compute the true maximum / minimum on finite
values -/

theorem PyFloat.isFinite_iff (a : PyFloat) : a.isFinite = true ↔ ∃ q, a = .finite q := by
  cases a <;> simp [PyFloat.isFinite]

theorem PyFloat.leB_fin (p q : ℚ) : (PyFloat.finite p).leB (.finite q) = decide (p ≤ q) := rfl

theorem PyFloat.ltB_fin (p q : ℚ) : (PyFloat.finite p).ltB (.finite q) = decide (p < q) := rfl

theorem pyMax_spec (l : List PyFloat) :
    ∀ a : PyFloat, a.isFinite = true → (∀ x ∈ l, x.isFinite = true) →
      pyMax a l ∈ a :: l ∧ ∀ x ∈ a :: l, x.leB (pyMax a l) = true := by
  induction l with
  | nil =>
      intro a ha _
      obtain ⟨q, rfl⟩ := (PyFloat.isFinite_iff a).1 ha
      refine ⟨List.mem_singleton_self _, ?_⟩
      intro x hx
      rw [List.mem_singleton] at hx
      subst hx
      simp [pyMax, PyFloat.leB]
  | cons b l ih =>
      intro a ha hl
      have hb : b.isFinite = true := hl b (List.mem_cons_self _ _)
      have hl2 : ∀ x ∈ l, x.isFinite = true := fun x hx => hl x (List.mem_cons_of_mem _ hx)
      have hacc : (pyMaxStep a b).isFinite = true := by
        unfold pyMaxStep; split <;> assumption
      obtain ⟨hmem, hbound⟩ := ih (pyMaxStep a b) hacc hl2
      have hstep : pyMax a (b :: l) = pyMax (pyMaxStep a b) l := rfl
      obtain ⟨qa, rfl⟩ := (PyFloat.isFinite_iff a).1 ha
      obtain ⟨qb, rfl⟩ := (PyFloat.isFinite_iff b).1 hb
      have hresfin : (pyMax (pyMaxStep (.finite qa) (.finite qb)) l).isFinite = true := by
        rcases List.mem_cons.1 hmem with h | h
        · rw [h]; exact hacc
        · exact hl2 _ h
      obtain ⟨qr, hqr⟩ := (PyFloat.isFinite_iff _).1 hresfin
      have hacc_le := hbound _ (List.mem_cons_self _ _)
      by_cases hab : qa < qb
      · have haccv : pyMaxStep (.finite qa) (.finite qb) = .finite qb := by
          simp [pyMaxStep, PyFloat.ltB_fin, hab]
        rw [haccv] at hmem hbound hacc_le hqr
        have hbr : qb ≤ qr := by
          rw [hqr, PyFloat.leB_fin, decide_eq_true_iff] at hacc_le
          exact hacc_le
        have har : qa ≤ qr := le_trans (le_of_lt hab) hbr
        constructor
        · rw [hstep, haccv]
          rcases List.mem_cons.1 hmem with h | h
          · rw [h]; exact List.mem_cons_of_mem _ (List.mem_cons_self _ _)
          · exact List.mem_cons_of_mem _ (List.mem_cons_of_mem _ h)
        · intro x hx
          rw [hstep, haccv, hqr]
          rcases List.mem_cons.1 hx with h | h
          · rw [h, PyFloat.leB_fin, decide_eq_true_iff]; exact har
          · rcases List.mem_cons.1 h with h2 | h2
            · rw [h2, PyFloat.leB_fin, decide_eq_true_iff]; exact hbr
            · have := hbound x (List.mem_cons_of_mem _ h2)
              rw [hqr] at this
              exact this
      · have haccv : pyMaxStep (.finite qa) (.finite qb) = .finite qa := by
          simp [pyMaxStep, PyFloat.ltB_fin, hab]
        rw [haccv] at hmem hbound hacc_le hqr
        have har : qa ≤ qr := by
          rw [hqr, PyFloat.leB_fin, decide_eq_true_iff] at hacc_le
          exact hacc_le
        have hbr : qb ≤ qr := le_trans (le_of_not_lt hab) har
        constructor
        · rw [hstep, haccv]
          rcases List.mem_cons.1 hmem with h | h
          · rw [h]; exact List.mem_cons_self _ _
          · exact List.mem_cons_of_mem _ (List.mem_cons_of_mem _ h)
        · intro x hx
          rw [hstep, haccv, hqr]
          rcases List.mem_cons.1 hx with h | h
          · rw [h, PyFloat.leB_fin, decide_eq_true_iff]; exact har
          · rcases List.mem_cons.1 h with h2 | h2
            · rw [h2, PyFloat.leB_fin, decide_eq_true_iff]; exact hbr
            · have := hbound x (List.mem_cons_of_mem _ h2)
              rw [hqr] at this
              exact this

theorem pyMin_spec (l : List PyFloat) :
    ∀ a : PyFloat, a.isFinite = true → (∀ x ∈ l, x.isFinite = true) →
      pyMin a l ∈ a :: l ∧ ∀ x ∈ a :: l, (pyMin a l).leB x = true := by
  induction l with
  | nil =>
      intro a ha _
      obtain ⟨q, rfl⟩ := (PyFloat.isFinite_iff a).1 ha
      refine ⟨List.mem_singleton_self _, ?_⟩
      intro x hx
      rw [List.mem_singleton] at hx
      subst hx
      simp [pyMin, PyFloat.leB]
  | cons b l ih =>
      intro a ha hl
      have hb : b.isFinite = true := hl b (List.mem_cons_self _ _)
      have hl2 : ∀ x ∈ l, x.isFinite = true := fun x hx => hl x (List.mem_cons_of_mem _ hx)
      have hacc : (pyMinStep a b).isFinite = true := by
        unfold pyMinStep; split <;> assumption
      obtain ⟨hmem, hbound⟩ := ih (pyMinStep a b) hacc hl2
      have hstep : pyMin a (b :: l) = pyMin (pyMinStep a b) l := rfl
      obtain ⟨qa, rfl⟩ := (PyFloat.isFinite_iff a).1 ha
      obtain ⟨qb, rfl⟩ := (PyFloat.isFinite_iff b).1 hb
      have hresfin : (pyMin (pyMinStep (.finite qa) (.finite qb)) l).isFinite = true := by
        rcases List.mem_cons.1 hmem with h | h
        · rw [h]; exact hacc
        · exact hl2 _ h
      obtain ⟨qr, hqr⟩ := (PyFloat.isFinite_iff _).1 hresfin
      have hacc_le := hbound _ (List.mem_cons_self _ _)
      by_cases hab : qb < qa
      · have haccv : pyMinStep (.finite qa) (.finite qb) = .finite qb := by
          simp [pyMinStep, PyFloat.ltB_fin, hab]
        rw [haccv] at hmem hbound hacc_le hqr
        have hrb : qr ≤ qb := by
          rw [hqr, PyFloat.leB_fin, decide_eq_true_iff] at hacc_le
          exact hacc_le
        have hra : qr ≤ qa := le_trans hrb (le_of_lt hab)
        constructor
        · rw [hstep, haccv]
          rcases List.mem_cons.1 hmem with h | h
          · rw [h]; exact List.mem_cons_of_mem _ (List.mem_cons_self _ _)
          · exact List.mem_cons_of_mem _ (List.mem_cons_of_mem _ h)
        · intro x hx
          rw [hstep, haccv, hqr]
          rcases List.mem_cons.1 hx with h | h
          · rw [h, PyFloat.leB_fin, decide_eq_true_iff]; exact hra
          · rcases List.mem_cons.1 h with h2 | h2
            · rw [h2, PyFloat.leB_fin, decide_eq_true_iff]; exact hrb
            · have := hbound x (List.mem_cons_of_mem _ h2)
              rw [hqr] at this
              exact this
      · have haccv : pyMinStep (.finite qa) (.finite qb) = .finite qa := by
          simp [pyMinStep, PyFloat.ltB_fin, hab]
        rw [haccv] at hmem hbound hacc_le hqr
        have hra : qr ≤ qa := by
          rw [hqr, PyFloat.leB_fin, decide_eq_true_iff] at hacc_le
          exact hacc_le
        have hrb : qr ≤ qb := le_trans hra (le_of_not_lt hab)
        constructor
        · rw [hstep, haccv]
          rcases List.mem_cons.1 hmem with h | h
          · rw [h]; exact List.mem_cons_self _ _
          · exact List.mem_cons_of_mem _ (List.mem_cons_of_mem _ h)
        · intro x hx
          rw [hstep, haccv, hqr]
          rcases List.mem_cons.1 hx with h | h
          · rw [h, PyFloat.leB_fin, decide_eq_true_iff]; exact hra
          · rcases List.mem_cons.1 h with h2 | h2
            · rw [h2, PyFloat.leB_fin, decide_eq_true_iff]; exact hrb
            · have := hbound x (List.mem_cons_of_mem _ h2)
              rw [hqr] at this
              exact this

/-! ## Sorting and grouping lemmas -/

theorem mem_insertSorted (k x : String) (l : List String) :
    x ∈ insertSorted k l ↔ x = k ∨ x ∈ l := by
  induction l with
  | nil => simp [insertSorted]
  | cons b bs ih =>
      simp only [insertSorted]
      split
      · simp [List.mem_cons]
      · simp only [List.mem_cons, ih]
        tauto

theorem mem_sortKeys (x : String) (l : List String) : x ∈ sortKeys l ↔ x ∈ l := by
  induction l with
  | nil => simp [sortKeys]
  | cons b bs ih =>
      have hstep : sortKeys (b :: bs) = insertSorted b (sortKeys bs) := rfl
      rw [hstep, mem_insertSorted, ih, List.mem_cons]

theorem groupedByDay_mem (valid : List (DateTime × PyFloat)) :
    ∀ p ∈ groupedByDay valid,
      (∃ v ∈ valid, dayKey v.1 = p.1) ∧
      p.2 = sumAmounts ((valid.filter fun w => dayKey w.1 == p.1).map Prod.snd) := by
  intro p hp
  unfold groupedByDay at hp
  obtain ⟨k, hk, rfl⟩ := List.mem_map.1 hp
  constructor
  · rw [mem_sortKeys, List.mem_dedup, List.mem_map] at hk
    obtain ⟨v, hv, rfl⟩ := hk
    exact ⟨v, hv, rfl⟩
  · simp [pySum_eq_sumAmounts]

theorem groupedByDay_cover (valid : List (DateTime × PyFloat)) :
    ∀ v ∈ valid, ∃ p ∈ groupedByDay valid, p.1 = dayKey v.1 := by
  intro v hv
  refine ⟨(dayKey v.1,
      pySum ((valid.filter fun w => dayKey w.1 == dayKey v.1).map Prod.snd)), ?_, rfl⟩
  unfold groupedByDay
  apply List.mem_map.2
  refine ⟨dayKey v.1, ?_, rfl⟩
  rw [mem_sortKeys, List.mem_dedup]
  exact List.mem_map.2 ⟨v, hv, rfl⟩

/-! ## The daily-total fold -/

theorem daily_fold (today : Date) (sales : List RawRecord) :
    ∀ acc : PyFloat,
      sales.foldl (dailyStep today) acc = acc.add (sumAmounts (matchedToday sales today)) := by
  induction sales with
  | nil =>
      intro acc
      simp [matchedToday, sumAmounts, PyFloat.add_zero_pf]
  | cons r rs ih =>
      intro acc
      rw [List.foldl_cons]
      cases hpr : parse_sale_record r with
      | none =>
          have hstep : dailyStep today acc r = acc := by simp [dailyStep, hpr]
          have hm : matchedToday (r :: rs) today = matchedToday rs today := by
            simp [matchedToday, List.filterMap_cons, hpr]
          rw [hstep, hm, ih]
      | some p =>
          by_cases hd : p.1.dateOf == today
          · have hstep : dailyStep today acc r = acc.add p.2 := by
              simp [dailyStep, hpr, hd]
            have hm : matchedToday (r :: rs) today = p.2 :: matchedToday rs today := by
              simp [matchedToday, List.filterMap_cons, hpr, List.filter_cons, hd]
            rw [hstep, hm, ih]
            have hsum : sumAmounts (p.2 :: matchedToday rs today) =
                p.2.add (sumAmounts (matchedToday rs today)) := rfl
            rw [hsum, PyFloat.add_assoc_pf]
          · have hstep : dailyStep today acc r = acc := by
              simp [dailyStep, hpr, hd]
            have hm : matchedToday (r :: rs) today = matchedToday rs today := by
              simp [matchedToday, List.filterMap_cons, hpr, List.filter_cons, hd]
            rw [hstep, hm, ih]

theorem show_daily_total_eq (sales : List RawRecord) (today : Date) :
    show_daily_total sales today = sumAmounts (matchedToday sales today) := by
  unfold show_daily_total
  rw [daily_fold, PyFloat.zero_add_pf]

/-! ## ISO format round trip -/

theorem digitCh_fact : ∀ d < 10, isDigitChar (digitCh d) = true ∧ (digitCh d).toNat = 48 + d := by
  decide

theorem twoDigitVal_pad2 (n : Nat) (h : n < 100) :
    twoDigitVal (digitCh (n / 10 % 10)) (digitCh (n % 10)) = some n := by
  have h1 := digitCh_fact (n / 10 % 10) (Nat.mod_lt _ (by norm_num))
  have h2 := digitCh_fact (n % 10) (Nat.mod_lt _ (by norm_num))
  simp [twoDigitVal, h1.1, h2.1, h1.2, h2.2]
  omega

theorem fourDigitVal_pad4 (n : Nat) (h : n < 10000) :
    fourDigitVal (digitCh (n / 1000 % 10)) (digitCh (n / 100 % 10))
      (digitCh (n / 10 % 10)) (digitCh (n % 10)) = some n := by
  have h1 := digitCh_fact (n / 1000 % 10) (Nat.mod_lt _ (by norm_num))
  have h2 := digitCh_fact (n / 100 % 10) (Nat.mod_lt _ (by norm_num))
  have h3 := digitCh_fact (n / 10 % 10) (Nat.mod_lt _ (by norm_num))
  have h4 := digitCh_fact (n % 10) (Nat.mod_lt _ (by norm_num))
  simp [fourDigitVal, h1.1, h2.1, h3.1, h4.1, h1.2, h2.2, h3.2, h4.2]
  omega

theorem daysInMonth_le31 (y m : Nat) : daysInMonth y m ≤ 31 := by
  unfold daysInMonth
  split
  · split <;> omega
  · split <;> omega

theorem parseISO_isoformat (t : DateTime) (h : t.valid = true) :
    parseISO (isoformat t) = some t := by
  obtain ⟨y, m, d, hh, mi, s⟩ := t
  have hb := h
  unfold DateTime.valid validYMD validHMS at hb
  simp only [Bool.and_eq_true, decide_eq_true_eq] at hb
  have hdim := daysInMonth_le31 y m
  have hy : y < 10000 := by omega
  have hm : m < 100 := by omega
  have hd : d < 100 := by omega
  have hhh : hh < 100 := by omega
  have hmi : mi < 100 := by omega
  have hs : s < 100 := by omega
  show parseISOChars (isoformatChars ⟨y, m, d, hh, mi, s⟩) = some ⟨y, m, d, hh, mi, s⟩
  have hch : isoformatChars ⟨y, m, d, hh, mi, s⟩ =
      [digitCh (y / 1000 % 10), digitCh (y / 100 % 10), digitCh (y / 10 % 10), digitCh (y % 10),
       '-', digitCh (m / 10 % 10), digitCh (m % 10), '-', digitCh (d / 10 % 10), digitCh (d % 10),
       'T', digitCh (hh / 10 % 10), digitCh (hh % 10), ':', digitCh (mi / 10 % 10),
       digitCh (mi % 10), ':', digitCh (s / 10 % 10), digitCh (s % 10)] := by
    simp [isoformatChars, pad4, pad2]
  rw [hch]
  have hcond : (validYMD y m d && validHMS hh mi s) = true := h
  simp [parseISOChars, fourDigitVal_pad4 y hy, twoDigitVal_pad2 m hm, twoDigitVal_pad2 d hd,
    twoDigitVal_pad2 hh hhh, twoDigitVal_pad2 mi hmi, twoDigitVal_pad2 s hs, hcond]

/-! ## The claims -/

/-- The record list of the spec's worked example: 10.00 and 5.00 on
2024-01-01 and 3.00 on 2024-01-02. -/
def exampleSales : List RawRecord :=
  [ .dict (some (.str "2024-01-01")) (some (.num (.finite 10)))
  , .dict (some (.str "2024-01-01")) (some (.num (.finite 5)))
  , .dict (some (.str "2024-01-02")) (some (.num (.finite 3))) ]

/-- The statistics the spec's worked example requires. -/
def exampleReport : Report :=
  { totalRecords := 3
    totalSales := .finite 18
    averageSale := .finite 6
    highestSale := .finite 10
    lowestSale := .finite 3
    dailyTotals := [("2024-01-01", .finite 15), ("2024-01-02", .finite 3)] }

section

attribute [local semireducible] Rat.add Rat.mul Rat.sub Rat.inv

/-- C1: on the spec's worked example the report is exactly count 3,
total 18.00, mean 6.00, max 10.00, min 3.00 with daily totals 15.00 on
2024-01-01 and 3.00 on 2024-01-02; and in general, for every list with at
least one valid record, the report's statistics are the count, sum,
arithmetic mean, maximum and minimum of the valid amounts (maximum and
minimum presuppose the amounts are comparable, i.e. finite) and the
per-date sums of the valid records. -/
theorem c1_report_statistics :
    generate_sales_report exampleSales = some exampleReport ∧
    ∀ sales : List RawRecord, validSales sales ≠ [] →
      (∀ x ∈ amountsOf sales, x.isFinite = true) →
      ∃ r, generate_sales_report sales = some r ∧
        r.totalRecords = (validSales sales).length ∧
        r.totalSales = sumAmounts (amountsOf sales) ∧
        r.averageSale = (sumAmounts (amountsOf sales)).divNat (validSales sales).length ∧
        r.highestSale ∈ amountsOf sales ∧
        (∀ x ∈ amountsOf sales, x.leB r.highestSale = true) ∧
        r.lowestSale ∈ amountsOf sales ∧
        (∀ x ∈ amountsOf sales, r.lowestSale.leB x = true) ∧
        (∀ p ∈ r.dailyTotals,
          (∃ w ∈ validSales sales, dayKey w.1 = p.1) ∧
          p.2 = sumAmounts (((validSales sales).filter fun w => dayKey w.1 == p.1).map Prod.snd)) ∧
        (∀ w ∈ validSales sales, ∃ p ∈ r.dailyTotals, p.1 = dayKey w.1) := by
  constructor
  · decide
  · intro sales hne hfin
    obtain ⟨v, vs, hv⟩ := List.exists_cons_of_ne_nil hne
    have hfm : sales.filterMap parse_sale_record = v :: vs := hv
    have hamt : amountsOf sales = v.2 :: vs.map Prod.snd := by
      simp [amountsOf, validSales, hfm]
    have hfin2 : ∀ x ∈ v.2 :: vs.map Prod.snd, x.isFinite = true := by
      rw [← hamt]; exact hfin
    have hgen : generate_sales_report sales = some
        { totalRecords := (v :: vs).length
          totalSales := pySum (v.2 :: vs.map Prod.snd)
          averageSale := pyMean (v.2 :: vs.map Prod.snd)
          highestSale := pyMax v.2 (vs.map Prod.snd)
          lowestSale := pyMin v.2 (vs.map Prod.snd)
          dailyTotals := groupedByDay (v :: vs) } := by
      unfold generate_sales_report
      rw [hfm]
    obtain ⟨hmaxmem, hmaxbound⟩ := pyMax_spec (vs.map Prod.snd) v.2
      (hfin2 v.2 (List.mem_cons_self _ _))
      (fun x hx => hfin2 x (List.mem_cons_of_mem _ hx))
    obtain ⟨hminmem, hminbound⟩ := pyMin_spec (vs.map Prod.snd) v.2
      (hfin2 v.2 (List.mem_cons_self _ _))
      (fun x hx => hfin2 x (List.mem_cons_of_mem _ hx))
    refine ⟨_, hgen, ?_, ?_, ?_, ?_, ?_, ?_, ?_, ?_, ?_⟩
    · rw [hv]
    · rw [hamt]
      exact pySum_eq_sumAmounts _
    · rw [hamt, hv]
      show pyMean (v.2 :: vs.map Prod.snd) =
        (sumAmounts (v.2 :: vs.map Prod.snd)).divNat (v :: vs).length
      unfold pyMean
      rw [pySum_eq_sumAmounts]
      simp
    · rw [hamt]
      exact hmaxmem
    · rw [hamt]
      exact hmaxbound
    · rw [hamt]
      exact hminmem
    · rw [hamt]
      exact hminbound
    · intro p hp
      rw [hv]
      exact groupedByDay_mem (v :: vs) p hp
    · intro w hw
      rw [hv] at hw
      exact groupedByDay_cover (v :: vs) w hw

/-- C1 witness: the general statement applied to the worked example. -/
theorem c1_report_statistics_witness :
    validSales exampleSales ≠ [] ∧
    (∀ x ∈ amountsOf exampleSales, x.isFinite = true) ∧
    ∃ r, generate_sales_report exampleSales = some r ∧
      r.totalRecords = (validSales exampleSales).length ∧
      r.totalSales = sumAmounts (amountsOf exampleSales) ∧
      r.averageSale = (sumAmounts (amountsOf exampleSales)).divNat (validSales exampleSales).length ∧
      r.highestSale ∈ amountsOf exampleSales ∧
      (∀ x ∈ amountsOf exampleSales, x.leB r.highestSale = true) ∧
      r.lowestSale ∈ amountsOf exampleSales ∧
      (∀ x ∈ amountsOf exampleSales, r.lowestSale.leB x = true) ∧
      (∀ p ∈ r.dailyTotals,
        (∃ w ∈ validSales exampleSales, dayKey w.1 = p.1) ∧
        p.2 = sumAmounts (((validSales exampleSales).filter fun w => dayKey w.1 == p.1).map Prod.snd)) ∧
      (∀ w ∈ validSales exampleSales, ∃ p ∈ r.dailyTotals, p.1 = dayKey w.1) :=
  ⟨by decide, by decide, c1_report_statistics.2 exampleSales (by decide) (by decide)⟩

/-- C2: for every record list and every date taken as today, the daily
total equals the sum of the amounts of exactly the valid records dated
that day (invalid records are skipped, the loop never aborts), and it is
exactly 0.00 when no valid record matches. -/
theorem c2_daily_total (sales : List RawRecord) (today : Date) :
    show_daily_total sales today = sumAmounts (matchedToday sales today) ∧
    (matchedToday sales today = [] → show_daily_total sales today = .finite 0) := by
  refine ⟨show_daily_total_eq sales today, ?_⟩
  intro hm
  rw [show_daily_total_eq, hm]
  rfl

/-- C2 witness: a valid record on another date still yields exactly 0. -/
theorem c2_daily_total_witness :
    matchedToday [RawRecord.dict (some (.str "2024-01-01")) (some (.num (.finite 7)))]
      ⟨2024, 1, 2⟩ = [] ∧
    show_daily_total [RawRecord.dict (some (.str "2024-01-01")) (some (.num (.finite 7)))]
      ⟨2024, 1, 2⟩ = .finite 0 :=
  ⟨by decide,
   (c2_daily_total [RawRecord.dict (some (.str "2024-01-01")) (some (.num (.finite 7)))]
      ⟨2024, 1, 2⟩).2 (by decide)⟩

/-- C3: whenever no record validates (in particular on the empty list),
report generation is aborted: no statistics are computed and no report
file is written; the result is the no-data signal `none`. -/
theorem c3_no_data (sales : List RawRecord)
    (h : ∀ r ∈ sales, parse_sale_record r = none) :
    generate_sales_report sales = none := by
  have hfm : sales.filterMap parse_sale_record = [] := by
    rw [List.filterMap_eq_nil_iff]
    exact h
  unfold generate_sales_report
  rw [hfm]

/-- C3 witness: an all-invalid two-record list produces no report. -/
theorem c3_no_data_witness :
    (∀ r ∈ [RawRecord.dict none none, RawRecord.other .null], parse_sale_record r = none) ∧
    generate_sales_report [RawRecord.dict none none, RawRecord.other .null] = none :=
  ⟨by decide, c3_no_data _ (by decide)⟩

/-- C4: for every valid (timestamp, amount) pair, persisting the list
containing its record and loading it back returns the same list, and
validating the record again yields exactly the same pair. -/
theorem c4_roundtrip (t : DateTime) (a : PyFloat) (h : t.valid = true)
    (sales : List RawRecord) :
    load_sales_data (save_sales_data (sales ++ [mkSaleRecord t a])) =
      sales ++ [mkSaleRecord t a] ∧
    parse_sale_record (mkSaleRecord t a) = some (t, a) := by
  refine ⟨rfl, ?_⟩
  unfold parse_sale_record mkSaleRecord
  simp [coerceFloat, coerceStr, parseISO_isoformat t h]

/-- C4 witness: the round trip at a concrete timestamp and amount. -/
theorem c4_roundtrip_witness :
    (⟨2024, 1, 1, 12, 30, 5⟩ : DateTime).valid = true ∧
    load_sales_data (save_sales_data ([] ++ [mkSaleRecord ⟨2024, 1, 1, 12, 30, 5⟩ (.finite 5)])) =
      [] ++ [mkSaleRecord ⟨2024, 1, 1, 12, 30, 5⟩ (.finite 5)] ∧
    parse_sale_record (mkSaleRecord ⟨2024, 1, 1, 12, 30, 5⟩ (.finite 5)) =
      some (⟨2024, 1, 1, 12, 30, 5⟩, .finite 5) :=
  ⟨by decide, c4_roundtrip ⟨2024, 1, 1, 12, 30, 5⟩ (.finite 5) (by decide) []⟩

/-- C5: every entered amount text that does not parse as a float, or
parses to a value with `amount < 0` true, is rejected: the error is
reported (`accepted = false`), no record is appended, the count is
unchanged and the file is not rewritten. -/
theorem c5_invalid_amount_rejected (sales : List RawRecord) (text : String) (now : DateTime)
    (h : ∀ a, pyFloatOfString (pyStrip text) = some a → a.ltZero = true) :
    add_sale sales text now = ⟨sales, none, false⟩ ∧
    (add_sale sales text now).sales.length = sales.length := by
  have hmain : add_sale sales text now = ⟨sales, none, false⟩ := by
    unfold add_sale
    cases hp : pyFloatOfString (pyStrip text) with
    | none => rfl
    | some a => simp [h a hp]
  exact ⟨hmain, by rw [hmain]⟩

/-- C5 witness: the negative entry text -5 is rejected with no state
change. -/
theorem c5_invalid_amount_rejected_witness :
    add_sale [] "-5" ⟨2024, 1, 1, 0, 0, 0⟩ = ⟨[], none, false⟩ ∧
    (add_sale [] "-5" ⟨2024, 1, 1, 0, 0, 0⟩).sales.length = ([] : List RawRecord).length :=
  c5_invalid_amount_rejected [] "-5" ⟨2024, 1, 1, 0, 0, 0⟩ (by
    intro a ha
    have hv : pyFloatOfString (pyStrip "-5") = some (.finite (-5)) := by decide
    rw [hv] at ha
    injection ha with h2
    rw [← h2]
    decide)

/-- C6: the validator is total (a Lean function into Option, never a
thrown exception) and rejects exactly when the timestamp field is missing
or its string form does not parse as an ISO date-time, or the amount
field is missing or not coercible to a float. -/
theorem c6_validator_characterization (r : RawRecord) :
    (parse_sale_record r).isNone = true ↔
      r.tsField = none ∨
      (∃ tv, r.tsField = some tv ∧ parseISO (coerceStr tv) = none) ∨
      r.amtField = none ∨
      (∃ av, r.amtField = some av ∧ coerceFloat av = none) := by
  cases r with
  | other v => simp [parse_sale_record, RawRecord.tsField, RawRecord.amtField]
  | dict ts am =>
      cases ts with
      | none => simp [parse_sale_record, RawRecord.tsField, RawRecord.amtField]
      | some tv =>
          cases am with
          | none => simp [parse_sale_record, RawRecord.tsField, RawRecord.amtField]
          | some av =>
              simp only [parse_sale_record, RawRecord.tsField, RawRecord.amtField]
              cases hf : coerceFloat av with
              | none => simp [hf]
              | some a =>
                  cases hi : parseISO (coerceStr tv) with
                  | none => simp [hf, hi]
                  | some t => simp [hf, hi]

/-- C7: a stored record whose timestamp parses and whose amount coerces
to a negative float is accepted as valid: no bounds check is reapplied at
validation time, so the negative amount flows into aggregation. -/
theorem c7_negative_amount_accepted (tv av : JsonVal) (t : DateTime) (a : PyFloat)
    (hts : parseISO (coerceStr tv) = some t) (hamt : coerceFloat av = some a)
    (hneg : a.ltZero = true) :
    parse_sale_record (.dict (some tv) (some av)) = some (t, a) := by
  simp [parse_sale_record, hts, hamt]

/-- C7 witness: the stored record with timestamp 2024-01-01 and amount -5
validates to the pair with the negative amount. -/
theorem c7_negative_amount_accepted_witness :
    parseISO (coerceStr (.str "2024-01-01")) = some ⟨2024, 1, 1, 0, 0, 0⟩ ∧
    coerceFloat (.num (.finite (-5))) = some (.finite (-5)) ∧
    (PyFloat.finite (-5)).ltZero = true ∧
    parse_sale_record (.dict (some (.str "2024-01-01")) (some (.num (.finite (-5))))) =
      some (⟨2024, 1, 1, 0, 0, 0⟩, .finite (-5)) :=
  ⟨by decide, by decide, by decide,
   c7_negative_amount_accepted (.str "2024-01-01") (.num (.finite (-5)))
     ⟨2024, 1, 1, 0, 0, 0⟩ (.finite (-5)) (by decide) (by decide) (by decide)⟩

/-- C8: an absent, unreadable or unparseable data file, or one whose JSON
document is not an array, loads as the empty record list, and every
subsequent operation then behaves exactly as on an empty dataset. -/
theorem c8_load_failure_empty (fs : FileState)
    (h : fs = .absent ∨ fs = .unreadable ∨ fs = .malformed ∨
         ∃ v, fs = .stored (.nonArr v)) :
    load_sales_data fs = [] ∧
    (∀ today, show_daily_total (load_sales_data fs) today = show_daily_total [] today) ∧
    generate_sales_report (load_sales_data fs) = generate_sales_report [] ∧
    (∀ text now, add_sale (load_sales_data fs) text now = add_sale [] text now) := by
  have hl : load_sales_data fs = [] := by
    rcases h with rfl | rfl | rfl | ⟨v, rfl⟩ <;> rfl
  rw [hl]
  exact ⟨rfl, fun _ => rfl, rfl, fun _ _ => rfl⟩

/-- C8 witness: the corrupted-file state at a concrete date. -/
theorem c8_load_failure_empty_witness :
    load_sales_data .malformed = [] ∧
    show_daily_total (load_sales_data .malformed) ⟨2024, 1, 2⟩ =
      show_daily_total [] ⟨2024, 1, 2⟩ ∧
    generate_sales_report (load_sales_data .malformed) = generate_sales_report [] :=
  ⟨(c8_load_failure_empty .malformed (Or.inr (Or.inr (Or.inl rfl)))).1,
   (c8_load_failure_empty .malformed (Or.inr (Or.inr (Or.inl rfl)))).2.1 ⟨2024, 1, 2⟩,
   (c8_load_failure_empty .malformed (Or.inr (Or.inr (Or.inl rfl)))).2.2.1⟩

/-- C9 counterexample: the claim as stated is false.  The source strips
each entered line before comparing (`input(...).strip()`), so the entered
password with a leading space differs from the expected password as a
string and still authenticates: the menu is shown although none of the
three entered passwords equals the expected one. -/
theorem c9_counterexample :
    (" admin123" : String) ≠ DEFAULT_ADMIN_PASSWORD ∧
    ("x" : String) ≠ DEFAULT_ADMIN_PASSWORD ∧
    authenticate DEFAULT_ADMIN_PASSWORD [" admin123", "x", "x"] = true ∧
    mainEntry none [" admin123", "x", "x"] .absent = .menuShown [] :=
  ⟨by decide, by decide, by decide, by decide⟩

/-- C9 (amended): for every sequence of three entered passwords none of
which, after stripping surrounding whitespace, equals the expected admin
password, authentication fails and the menu is never shown. -/
theorem c9_three_failures_denied (env : Option String) (p1 p2 p3 : String) (fs : FileState)
    (h1 : pyStrip p1 ≠ get_admin_password env)
    (h2 : pyStrip p2 ≠ get_admin_password env)
    (h3 : pyStrip p3 ≠ get_admin_password env) :
    authenticate (get_admin_password env) [p1, p2, p3] = false ∧
    mainEntry env [p1, p2, p3] fs = .accessDenied := by
  have e1 : (pyStrip p1 == get_admin_password env) = false := beq_eq_false_iff_ne.2 h1
  have e2 : (pyStrip p2 == get_admin_password env) = false := beq_eq_false_iff_ne.2 h2
  have e3 : (pyStrip p3 == get_admin_password env) = false := beq_eq_false_iff_ne.2 h3
  have ha : authenticate (get_admin_password env) [p1, p2, p3] = false := by
    show authGo (get_admin_password env) 3 [p1, p2, p3] = false
    simp [authGo, e1, e2, e3]
  exact ⟨ha, by simp [mainEntry, ha]⟩

/-- C9 witness: three concrete failing attempts are denied. -/
theorem c9_three_failures_denied_witness :
    pyStrip "a" ≠ get_admin_password none ∧
    (authenticate (get_admin_password none) ["a", "b", "c"] = false ∧
     mainEntry none ["a", "b", "c"] .absent = .accessDenied) :=
  ⟨by decide,
   c9_three_failures_denied none "a" "b" "c" .absent (by decide) (by decide) (by decide)⟩

/-- C10: every entered text that parses to a float on which `amount < 0`
is false is accepted and appended; the set of such floats is exactly nan,
+inf and the non-negative finite numbers, so the entry-time check does
not exclude non-finite values. -/
theorem c10_nonfinite_accepted (sales : List RawRecord) (text : String) (now : DateTime)
    (a : PyFloat) (hp : pyFloatOfString (pyStrip text) = some a)
    (hnn : a.ltZero = false) :
    add_sale sales text now =
      ⟨sales ++ [mkSaleRecord now a],
       some (save_sales_data (sales ++ [mkSaleRecord now a])), true⟩ ∧
    (∀ b : PyFloat, b.ltZero = false ↔
      (b = .nan ∨ b = .inf ∨ ∃ q : ℚ, 0 ≤ q ∧ b = .finite q)) := by
  constructor
  · unfold add_sale
    rw [hp]
    simp [hnn]
  · intro b
    cases b with
    | finite q =>
        simp [PyFloat.ltZero, PyFloat.ltB, PyFloat.zero, decide_eq_false_iff_not, not_lt]
    | nan => simp [PyFloat.ltZero, PyFloat.ltB]
    | inf => simp [PyFloat.ltZero, PyFloat.ltB, PyFloat.zero]
    | ninf => simp [PyFloat.ltZero, PyFloat.ltB, PyFloat.zero]

/-- C10 witness: the texts nan and inf are both accepted and appended. -/
theorem c10_nonfinite_accepted_witness :
    pyFloatOfString (pyStrip "nan") = some .nan ∧
    PyFloat.nan.ltZero = false ∧
    add_sale [] "nan" ⟨2024, 1, 1, 0, 0, 0⟩ =
      ⟨[] ++ [mkSaleRecord ⟨2024, 1, 1, 0, 0, 0⟩ .nan],
       some (save_sales_data ([] ++ [mkSaleRecord ⟨2024, 1, 1, 0, 0, 0⟩ .nan])), true⟩ ∧
    pyFloatOfString (pyStrip "inf") = some .inf ∧
    add_sale [] "inf" ⟨2024, 1, 1, 0, 0, 0⟩ =
      ⟨[] ++ [mkSaleRecord ⟨2024, 1, 1, 0, 0, 0⟩ .inf],
       some (save_sales_data ([] ++ [mkSaleRecord ⟨2024, 1, 1, 0, 0, 0⟩ .inf])), true⟩ :=
  ⟨by decide, by decide,
   (c10_nonfinite_accepted [] "nan" ⟨2024, 1, 1, 0, 0, 0⟩ .nan (by decide) (by decide)).1,
   by decide,
   (c10_nonfinite_accepted [] "inf" ⟨2024, 1, 1, 0, 0, 0⟩ .inf (by decide) (by decide)).1⟩

end

end SalesMgmt
